import Mathlib

/-!
Shallow embedding of `src/native/ex_maude_nif/src/lib.rs` (ExMaude NIF).

Strings are modelled as `List Char`.  The child's stdout stream is modelled
as the list of outcomes of successive `read_line` calls: each `ReadEvent.line s`
is a successful read returning the text `s` (including its terminator, when
present), each `ReadEvent.err e` is an `Err(e)` from `read_line`, and the end
of the list is end-of-stream (`read_line` returning `Ok(0)` bytes).

Fallible primitives that the Rust code calls (mutex `lock()`, `writeln!`,
`flush`, `spawn`, `stdin.take()`, `try_wait`, `kill`, `wait`) are modelled by
environment records fixing each primitive's outcome; the functions `start`,
`execute`, `stop` and `alive` are translated over those environments.  Side
effects on the child process and its stdin are recorded as an `Action` trace.
-/

namespace ExMaude

/-- Strings of the Rust code, modelled as lists of characters. -/
abbrev Str := List Char

/-- One outcome of a `read_line` call on the child's stdout. -/
inductive ReadEvent
  | line (s : Str)
  | err (e : Str)
deriving DecidableEq

/-- The error kinds of the NIF.  In the Rust source every error is a
`rustler::Error::Term` wrapping a formatted string; the constructor
corresponds to the format prefix used at each error site:
`spawnError` ↦ "spawn failed: _", `streamAcquisitionError` ↦
"failed to get stdin"/"failed to get stdout", `lockError` ↦
"_ lock failed: _", `writeError` ↦ "write failed: _",
`flushError` ↦ "flush failed: _", `readError` ↦ "read failed: _". -/
inductive NifError
  | spawnError (msg : Str)
  | streamAcquisitionError (msg : Str)
  | lockError (msg : Str)
  | writeError (msg : Str)
  | flushError (msg : Str)
  | readError (msg : Str)
deriving DecidableEq

/-- Side effects on the child process and its stdin, recorded as a trace. -/
inductive Action
  | spawn
  | writeStdin (data : Str)
  | flushStdin
  | sleepMs (ms : Nat)
  | kill
  | waitChild
deriving DecidableEq

/-- The fixed prompt literal `"Maude>"` scanned for by `read_until_prompt`. -/
def prompt : Str := "Maude>".toList

/-- `containsSub p s` is Rust's `s.contains(p)`: `p` occurs as a contiguous
substring of `s`. -/
def containsSub (p : Str) : Str → Bool
  | [] => p.isEmpty
  | c :: t => p.isPrefixOf (c :: t) || containsSub p t

/-- `beforeFirst p s` is Rust's `s.split(p).next().unwrap()` for a non-empty
pattern `p`: the portion of `s` strictly before the first occurrence of `p`,
or all of `s` when `p` does not occur. -/
def beforeFirst (p : Str) : Str → Str
  | [] => []
  | c :: t => if p.isPrefixOf (c :: t) then [] else c :: beforeFirst p t

/-- Rust's `str::trim`: remove leading and trailing whitespace. -/
def trimChars (s : Str) : Str :=
  ((s.dropWhile Char.isWhitespace).reverse.dropWhile Char.isWhitespace).reverse

/-- The `loop` body of `read_until_prompt` (lib.rs lines 159-188), reading
events one at a time with `acc` as the accumulated `output` string:
end-of-stream breaks and returns the trimmed accumulator; a read error is
returned immediately; a line containing the prompt contributes only its part
before the prompt (skipping the push when that part is empty) and breaks;
any other line is appended whole and the loop continues. -/
def read_loop : List ReadEvent → Str → Except NifError Str
  | [], acc => .ok (trimChars acc)
  | ReadEvent.err e :: _, _ => .error (.readError e)
  | ReadEvent.line l :: rest, acc =>
    if containsSub prompt l then
      .ok (trimChars (if (beforeFirst prompt l).isEmpty then acc
                      else acc ++ beforeFirst prompt l))
    else
      read_loop rest (acc ++ l)

/-- `read_until_prompt` (lib.rs lines 150-191): lock the stdout handle
(surfacing a lock failure as an error) and run the read loop with an empty
accumulator. -/
def read_until_prompt (stdoutLockFail : Option Str) (events : List ReadEvent) :
    Except NifError Str :=
  match stdoutLockFail with
  | some e => .error (.lockError e)
  | none => read_loop events []

/-- Outcomes of the fallible primitives `execute` calls: `none` means the
call succeeds, `some e` that it fails with message `e`. -/
structure ExecEnv where
  stdinLockFail : Option Str
  writeFail : Option Str
  flushFail : Option Str
  stdoutLockFail : Option Str
  events : List ReadEvent

/-- `execute` (lib.rs lines 82-101): lock stdin (lock failure is an error),
write the command followed by one line terminator (`writeln!`), flush, then
perform one `read_until_prompt` cycle and return its result.  The first
component is the trace of write-side effects attempted. -/
def execute (env : ExecEnv) (command : Str) : List Action × Except NifError Str :=
  match env.stdinLockFail with
  | some e => ([], .error (.lockError e))
  | none =>
    match env.writeFail with
    | some e => ([Action.writeStdin (command ++ ['\n'])], .error (.writeError e))
    | none =>
      match env.flushFail with
      | some e => ([Action.writeStdin (command ++ ['\n']), Action.flushStdin],
                   .error (.flushError e))
      | none =>
        ([Action.writeStdin (command ++ ['\n']), Action.flushStdin],
         read_until_prompt env.stdoutLockFail env.events)

/-- Outcomes of the fallible primitives `start` calls: `spawnFail` for
`Command::spawn`, `stdinAcq`/`stdoutAcq` for whether `child.stdin.take()` /
`child.stdout.take()` yield `Some`, and the stdout lock and stream for the
handshake read. -/
structure StartEnv where
  spawnFail : Option Str
  stdinAcq : Bool
  stdoutAcq : Bool
  stdoutLockFail : Option Str
  events : List ReadEvent

/-- `start` (lib.rs lines 38-68): spawn the child (spawn failure is an
error), take both pipe ends (either missing is an error), then run one
handshake `read_until_prompt`, propagating its error with `?`; on success the
handle is returned (modelled as `Unit`) and the handshake text is discarded.
The trace records the spawned child; note the handshake error path performs
no `kill`/`wait` on the already-spawned child. -/
def start (env : StartEnv) : List Action × Except NifError Unit :=
  match env.spawnFail with
  | some e => ([], .error (.spawnError e))
  | none =>
    if env.stdinAcq = false then
      ([Action.spawn], .error (.streamAcquisitionError "failed to get stdin".toList))
    else if env.stdoutAcq = false then
      ([Action.spawn], .error (.streamAcquisitionError "failed to get stdout".toList))
    else
      match read_until_prompt env.stdoutLockFail env.events with
      | .error e => ([Action.spawn], .error e)
      | .ok _ => ([Action.spawn], .ok ())

/-- Outcomes of the fallible primitives `stop` calls.  `killFail` and
`waitFail` are the (discarded) results of `child.kill()` and `child.wait()`. -/
structure StopEnv where
  childLockFail : Option Str
  stdinLockFail : Option Str
  writeFail : Option Str
  flushFail : Option Str
  killFail : Option Str
  waitFail : Option Str

/-- The line `stop` writes for graceful shutdown: `writeln!(stdin, "quit")`. -/
def quitLine : Str := "quit".toList ++ ['\n']

/-- `stop` (lib.rs lines 107-127): lock the child handle, propagating a lock
failure as an error with `?`; then, if the stdin lock is obtained, write
`quit` and flush with results discarded; sleep 100 ms; unconditionally kill
and wait with results discarded; return `Ok(())`. -/
def stop (env : StopEnv) : List Action × Except NifError Unit :=
  match env.childLockFail with
  | some e => ([], .error (.lockError e))
  | none =>
    ((match env.stdinLockFail with
      | some _ => []
      | none => [Action.writeStdin quitLine, Action.flushStdin]) ++
     [Action.sleepMs 100, Action.kill, Action.waitChild], .ok ())

/-- Outcomes of the primitives `alive` calls: the child lock and
`child.try_wait()` (`Ok(none)` still running, `Ok(some status)` exited,
`Err e` status check failed). -/
structure AliveEnv where
  childLockFail : Option Str
  tryWaitResult : Except Str (Option Nat)

/-- `alive` (lib.rs lines 138-147): `Ok(None)` from `try_wait` is `true`;
an exit status, a `try_wait` error, or a child-lock failure are all `false`. -/
def alive (env : AliveEnv) : Bool :=
  match env.childLockFail with
  | some _ => false
  | none =>
    match env.tryWaitResult with
    | .ok none => true
    | .ok (some _) => false
    | .error _ => false

/-- A stream of `read_line` outcomes as a real `BufReader` can produce them:
every successfully read line that is followed by a further read ends in a
newline (a line lacking its terminator only occurs as the last data before
end-of-stream), and after a read error the code returns, so later events are
unconstrained. -/
inductive WFStream : List ReadEvent → Prop
  | nil : WFStream []
  | last (s : Str) : WFStream [ReadEvent.line s]
  | err (e : Str) (rest : List ReadEvent) : WFStream (ReadEvent.err e :: rest)
  | cons (s : Str) (rest : List ReadEvent) :
      (∃ t, s = t ++ ['\n']) → WFStream rest → WFStream (ReadEvent.line s :: rest)

/-- The accumulator shape maintained by the read loop: empty, or ending in a
newline. -/
def NlTerm (a : Str) : Prop := a = [] ∨ ∃ t, a = t ++ ['\n']

/-! Library aliases, restated over `Str` for local use. -/

lemma isPre_iff {p q : Str} : p.isPrefixOf q = true ↔ p <+: q :=
  List.isPrefixOf_iff_prefix

lemma preOrPre {p q r : Str} (h1 : p <+: r) (h2 : q <+: r) : p <+: q ∨ q <+: p :=
  List.prefix_or_prefix_of_prefix h1 h2

lemma preAppend (p q : Str) : p <+: p ++ q :=
  List.prefix_append p q

lemma infixConsIff {p t : Str} {c : Char} : p <:+: c :: t ↔ p <+: c :: t ∨ p <:+: t :=
  List.infix_cons_iff

lemma infixCons {p t : Str} {c : Char} (h : p <:+: t) : p <:+: c :: t :=
  List.infix_cons h

lemma infixNilIff {p : Str} : p <:+: ([] : Str) ↔ p = [] :=
  List.infix_nil

lemma revPre {p q : Str} : p.reverse <+: q.reverse ↔ p <:+ q :=
  List.reverse_prefix

/-! Facts about the string scanning primitives. -/

lemma containsSub_iff (p : Str) : ∀ s : Str, containsSub p s = true ↔ p <:+: s := by
  intro s
  induction s with
  | nil => simp [containsSub, List.isEmpty_iff, infixNilIff]
  | cons c t ih =>
    simp [containsSub, Bool.or_eq_true, isPre_iff, ih, infixConsIff]

lemma beforeFirst_pre (p : Str) : ∀ s : Str, beforeFirst p s <+: s := by
  intro s
  induction s with
  | nil => simp [beforeFirst]
  | cons c t ih =>
    by_cases h : p.isPrefixOf (c :: t)
    · simp [beforeFirst, h]
    · simpa [beforeFirst, h, List.cons_prefix_cons] using ih

lemma beforeFirst_no_occurrence (p : Str) (hp : p ≠ []) :
    ∀ s : Str, ¬ p <:+: beforeFirst p s := by
  intro s
  induction s with
  | nil => simpa [beforeFirst, infixNilIff] using hp
  | cons c t ih =>
    by_cases h : p.isPrefixOf (c :: t)
    · simpa [beforeFirst, h, infixNilIff] using hp
    · intro hinf
      rw [beforeFirst, if_neg h] at hinf
      rcases infixConsIff.mp hinf with hpre | hinf2
      · have hsub : c :: beforeFirst p t <+: c :: t :=
          List.cons_prefix_cons.mpr ⟨rfl, beforeFirst_pre p t⟩
        exact h (isPre_iff.mpr (hpre.trans hsub))
      · exact ih hinf2

/-- A pattern with no newline cannot straddle a newline-terminated left part:
if `p` occurs in `A ++ B` where `A` is empty or newline-terminated, it occurs
in `A` or in `B`. -/
lemma not_sub_append (p : Str) (hnl : ('\n' : Char) ∉ p) (B : Str)
    (h2 : ¬ p <:+: B) : ∀ A : Str, NlTerm A → ¬ p <:+: A → ¬ p <:+: A ++ B := by
  intro A
  induction A with
  | nil => intro _ _; simpa using h2
  | cons c t ih =>
    intro hA h1 hinf
    rcases hA with h0 | ⟨u, hu⟩
    · exact absurd h0 (List.cons_ne_nil c t)
    have htn : NlTerm t := by
      cases u with
      | nil =>
        left
        have h' : c :: t = ['\n'] := hu
        exact (List.cons_eq_cons.mp h').2
      | cons d u' =>
        right
        exact ⟨u', (List.cons_eq_cons.mp hu).2⟩
    rw [List.cons_append] at hinf
    rcases infixConsIff.mp hinf with hpre | hinf2
    · rw [← List.cons_append] at hpre
      rcases preOrPre hpre (preAppend (c :: t) B) with h3 | h3
      · exact h1 h3.isInfix
      · refine hnl (h3.subset ?_)
        rw [hu]
        simp
    · have h1t : ¬ p <:+: t := fun hx => h1 (infixCons hx)
      exact ih htn h1t hinf2

/-- The trimmed string is a contiguous substring of the original. -/
lemma trimChars_sub (s : Str) : trimChars s <:+: s := by
  have h1 : s.dropWhile Char.isWhitespace <:+ s := List.dropWhile_suffix _
  have h2 : (s.dropWhile Char.isWhitespace).reverse.dropWhile Char.isWhitespace <:+
      (s.dropWhile Char.isWhitespace).reverse := List.dropWhile_suffix _
  have h3 : trimChars s <+: s.dropWhile Char.isWhitespace := by
    have := revPre.mpr h2
    simpa [trimChars] using this
  exact (h3.isInfix).trans h1.isInfix

/-! Invariants of the read loop. -/

lemma prompt_ne_nil : prompt ≠ [] := by decide

lemma newline_not_mem_prompt : ('\n' : Char) ∉ prompt := by decide

/-- The string pushed when a prompt-bearing line arrives contains no prompt
occurrence, provided the accumulator is newline-shaped and prompt-free. -/
lemma no_prompt_push (acc : Str) (hacc : NlTerm acc) (hnp : ¬ prompt <:+: acc)
    (l : Str) :
    ¬ prompt <:+: (if beforeFirst prompt l = [] then acc
                   else acc ++ beforeFirst prompt l) := by
  by_cases he : beforeFirst prompt l = []
  · simpa [he] using hnp
  · rw [if_neg he]
    exact not_sub_append prompt newline_not_mem_prompt (beforeFirst prompt l)
      (beforeFirst_no_occurrence prompt prompt_ne_nil l) acc hacc hnp

/-- Along a well-formed stream, the loop never returns a string containing
the prompt literal. -/
lemma read_loop_ok_no_prompt :
    ∀ evs, WFStream evs → ∀ acc, NlTerm acc → ¬ prompt <:+: acc →
      ∀ out, read_loop evs acc = .ok out → ¬ prompt <:+: out := by
  intro evs hwf
  induction hwf with
  | nil =>
    intro acc hacc hnp out hout
    simp [read_loop] at hout
    exact fun hin => hnp ((hout ▸ hin).trans (trimChars_sub acc))
  | last s =>
    intro acc hacc hnp out hout
    by_cases hc : containsSub prompt s = true
    · simp [read_loop, hc] at hout
      exact fun hin => (no_prompt_push acc hacc hnp s)
        ((hout ▸ hin).trans (trimChars_sub _))
    · simp [read_loop, hc] at hout
      have hs : ¬ prompt <:+: s := fun hx => hc ((containsSub_iff prompt s).mpr hx)
      have hacc' : ¬ prompt <:+: acc ++ s :=
        not_sub_append prompt newline_not_mem_prompt s hs acc hacc hnp
      exact fun hin => hacc' ((hout ▸ hin).trans (trimChars_sub _))
  | err e rest =>
    intro acc _ _ out hout
    simp [read_loop] at hout
  | cons s rest hs _ ih =>
    intro acc hacc hnp out hout
    by_cases hc : containsSub prompt s = true
    · simp [read_loop, hc] at hout
      exact fun hin => (no_prompt_push acc hacc hnp s)
        ((hout ▸ hin).trans (trimChars_sub _))
    · simp [read_loop, hc] at hout
      have hnl : NlTerm (acc ++ s) := by
        rcases hs with ⟨t, ht⟩
        right
        exact ⟨acc ++ t, by rw [ht, List.append_assoc]⟩
      have hnp' : ¬ prompt <:+: acc ++ s :=
        not_sub_append prompt newline_not_mem_prompt s
          (fun hx => hc ((containsSub_iff prompt s).mpr hx)) acc hacc hnp
      exact ih (acc ++ s) hnl hnp' out hout

/-- Every successful result of the loop is a trimmed string. -/
lemma read_loop_ok_trim :
    ∀ evs acc out, read_loop evs acc = .ok out → ∃ raw, out = trimChars raw := by
  intro evs
  induction evs with
  | nil =>
    intro acc out h
    simp [read_loop] at h
    exact ⟨acc, h.symm⟩
  | cons ev rest ih =>
    intro acc out h
    cases ev with
    | err e => simp [read_loop] at h
    | line l =>
      by_cases hc : containsSub prompt l = true
      · simp [read_loop, hc] at h
        exact ⟨_, h.symm⟩
      · simp [read_loop, hc] at h
        exact ih (acc ++ l) out h

/-- A stream with no read errors always yields a successful result. -/
lemma read_loop_no_err_ok :
    ∀ evs, (∀ e, ReadEvent.err e ∉ evs) → ∀ acc, ∃ out, read_loop evs acc = .ok out := by
  intro evs
  induction evs with
  | nil => intro _ acc; exact ⟨trimChars acc, by simp [read_loop]⟩
  | cons ev rest ih =>
    intro h acc
    cases ev with
    | err e => exact absurd (by simp) (h e)
    | line l =>
      by_cases hc : containsSub prompt l = true
      · exact ⟨trimChars (if (beforeFirst prompt l).isEmpty then acc
                          else acc ++ beforeFirst prompt l), by simp [read_loop, hc]⟩
      · have h' : ∀ e, ReadEvent.err e ∉ rest := fun e he => h e (by simp [he])
        obtain ⟨out, hout⟩ := ih h' (acc ++ l)
        exact ⟨out, by simp [read_loop, hc, hout]⟩

/-- The only error kind the loop itself produces is a read failure. -/
lemma read_loop_error_kind :
    ∀ evs acc er, read_loop evs acc = .error er → ∃ m, er = NifError.readError m := by
  intro evs
  induction evs with
  | nil => intro acc er h; simp [read_loop] at h
  | cons ev rest ih =>
    intro acc er h
    cases ev with
    | err e =>
      simp [read_loop] at h
      exact ⟨e, h.symm⟩
    | line l =>
      by_cases hc : containsSub prompt l = true
      · simp [read_loop, hc] at h
      · simp [read_loop, hc] at h
        exact ih (acc ++ l) er h

/-- On a prompt-free list of lines the loop accumulates every line whole and
returns the trimmed concatenation at end-of-stream. -/
lemma read_loop_lines_eof :
    ∀ (lines : List Str), (∀ l ∈ lines, containsSub prompt l = false) →
      ∀ acc, read_loop (lines.map ReadEvent.line) acc =
        .ok (trimChars (acc ++ lines.flatten)) := by
  intro lines
  induction lines with
  | nil => intro _ acc; simp [read_loop]
  | cons l ls ih =>
    intro h acc
    have hc : containsSub prompt l = false := h l (by simp)
    have h' : ∀ x ∈ ls, containsSub prompt x = false := fun x hx => h x (by simp [hx])
    simp [read_loop, hc, ih h', List.append_assoc]

/-- C2: read-until-prompt appends whole non-prompt lines to the accumulator;
on the first line containing the literal `Maude>` it appends only the text of
that line before the first occurrence and terminates; on any well-formed
stream a successful response never contains the prompt literal; and the
input line "result=5 Maude> next" yields the frame "result=5", with " next"
discarded. -/
theorem c2_framing :
    (∀ l rest acc, containsSub prompt l = false →
        read_loop (ReadEvent.line l :: rest) acc = read_loop rest (acc ++ l))
  ∧ (∀ l rest acc, containsSub prompt l = true →
        read_loop (ReadEvent.line l :: rest) acc =
          .ok (trimChars (acc ++ beforeFirst prompt l)))
  ∧ (∀ evs out, WFStream evs → read_until_prompt none evs = .ok out →
        ¬ prompt <:+: out)
  ∧ read_until_prompt none [ReadEvent.line ("result=5 Maude> next".toList)] =
      .ok ("result=5".toList) := by
  refine ⟨?_, ?_, ?_, by rfl⟩
  · intro l rest acc hc
    simp [read_loop, hc]
  · intro l rest acc hc
    by_cases he : beforeFirst prompt l = []
    · simp [read_loop, hc, he]
    · simp [read_loop, hc, he]
  · intro evs out hwf hout
    exact read_loop_ok_no_prompt evs hwf [] (Or.inl rfl) (by decide) out hout

/-- Witness for C2 on the concrete mid-line prompt stream. -/
theorem c2_framing_witness : ¬ prompt <:+: ("result=5".toList) :=
  c2_framing.2.2.1 [ReadEvent.line ("result=5 Maude> next".toList)]
    ("result=5".toList) (WFStream.last _) (by rfl)

/-- C5: a stream reaching end-of-stream before any prompt line makes the
read return the accumulated text, trimmed, as a success; `execute`
consequently returns the partial text when the child exits promptless. -/
theorem c5_eof_returns_acc (lines : List Str)
    (h : ∀ l ∈ lines, containsSub prompt l = false) (command : Str) :
    read_until_prompt none (lines.map ReadEvent.line) =
      .ok (trimChars lines.flatten)
  ∧ (execute ⟨none, none, none, none, lines.map ReadEvent.line⟩ command).2 =
      .ok (trimChars lines.flatten) := by
  have h1 := read_loop_lines_eof lines h []
  rw [List.nil_append] at h1
  exact ⟨h1, by simpa [execute, read_until_prompt] using h1⟩

/-- Witness for C5 on a concrete promptless stream. -/
theorem c5_eof_returns_acc_witness :
    read_until_prompt none ((["partial".toList] : List Str).map ReadEvent.line) =
      .ok (trimChars (["partial".toList] : List Str).flatten) :=
  (c5_eof_returns_acc ["partial".toList] (by decide) []).1

/-- C6: an underlying read error aborts the loop immediately and surfaces a
read failure; the accumulator (and any earlier prompt-free lines) do not
appear in the result, which depends only on the error. -/
theorem c6_read_error_discards :
    ∀ (pre : List Str), (∀ l ∈ pre, containsSub prompt l = false) →
      ∀ (e : Str) (post : List ReadEvent) (acc : Str),
        read_loop (pre.map ReadEvent.line ++ ReadEvent.err e :: post) acc =
          .error (NifError.readError e) := by
  intro pre
  induction pre with
  | nil => intro _ e post acc; simp [read_loop]
  | cons l ls ih =>
    intro h e post acc
    have hc : containsSub prompt l = false := h l (by simp)
    simp only [List.map_cons, List.cons_append, read_loop, hc, Bool.false_eq_true,
      if_false]
    exact ih (fun x hx => h x (by simp [hx])) e post (acc ++ l)

/-- Witness for C6 on a concrete stream with accumulated output before the
error. -/
theorem c6_read_error_discards_witness :
    read_loop [ReadEvent.line ("x\n".toList), ReadEvent.err ("boom".toList)] [] =
      .error (NifError.readError ("boom".toList)) :=
  c6_read_error_discards ["x\n".toList] (by decide) ("boom".toList) [] []

/-- C3: for a command without embedded newlines, on the success path of the
write side, execute writes exactly one line (the command plus a single
terminator) then flushes, performs one read-until-prompt cycle, returns that
cycle's result, and any successful result is a trimmed string. -/
theorem c3_execute_single_line (env : ExecEnv) (c : Str) (hc : ('\n' : Char) ∉ c)
    (h1 : env.stdinLockFail = none) (h2 : env.writeFail = none)
    (h3 : env.flushFail = none) :
    (execute env c).1 = [Action.writeStdin (c ++ ['\n']), Action.flushStdin]
  ∧ (c ++ ['\n']).count '\n' = 1
  ∧ (execute env c).2 = read_until_prompt env.stdoutLockFail env.events
  ∧ (∀ out, (execute env c).2 = .ok out → ∃ raw, out = trimChars raw) := by
  refine ⟨by simp [execute, h1, h2, h3], ?_, by simp [execute, h1, h2, h3], ?_⟩
  · have h0 : c.count '\n' = 0 := List.count_eq_zero.mpr hc
    simp [List.count_append, h0]
  · intro out hout
    have he : (execute env c).2 = read_until_prompt env.stdoutLockFail env.events := by
      simp [execute, h1, h2, h3]
    rw [he] at hout
    cases h4 : env.stdoutLockFail with
    | some e => simp [read_until_prompt, h4] at hout
    | none =>
      simp only [read_until_prompt, h4] at hout
      exact read_loop_ok_trim env.events [] out hout

/-- Witness for C3 at a concrete command and environment. -/
theorem c3_execute_single_line_witness :
    (execute ⟨none, none, none, none, []⟩ ("red".toList)).1 =
      [Action.writeStdin ("red".toList ++ ['\n']), Action.flushStdin] :=
  (c3_execute_single_line ⟨none, none, none, none, []⟩ ("red".toList)
    (by decide) rfl rfl rfl).1

/-- C10: execute performs no validation or escaping: for every command,
including one with embedded newlines, the first stdin write carries the
command verbatim plus one terminator; the written bytes for "a\nb" decompose
on the terminator into two command lines (plus the empty tail after the
final terminator), so the child receives multiple input lines. -/
theorem c10_execute_verbatim (env : ExecEnv) (c : Str)
    (h1 : env.stdinLockFail = none) :
    (execute env c).1.head? = some (Action.writeStdin (c ++ ['\n']))
  ∧ ("a\nb".toList ++ ['\n']).splitOn '\n' = ["a".toList, "b".toList, []] := by
  constructor
  · cases h2 : env.writeFail with
    | some e => simp [execute, h1, h2]
    | none =>
      cases h3 : env.flushFail with
      | some e => simp [execute, h1, h2, h3]
      | none => simp [execute, h1, h2, h3]
  · decide

/-- Witness for C10 at a command containing an embedded newline. -/
theorem c10_execute_verbatim_witness :
    (execute ⟨none, none, none, none, []⟩ ("a\nb".toList)).1.head? =
      some (Action.writeStdin ("a\nb".toList ++ ['\n'])) :=
  (c10_execute_verbatim ⟨none, none, none, none, []⟩ ("a\nb".toList) rfl).1

/-- C7: alive returns a boolean in every internal state: a not-yet-exited
child yields true; an exited child, a status-check error, or a child-lock
failure all yield false. -/
theorem c7_alive_total (env : AliveEnv) :
    (env.childLockFail = none → env.tryWaitResult = .ok none → alive env = true)
  ∧ (∀ code, env.childLockFail = none → env.tryWaitResult = .ok (some code) →
       alive env = false)
  ∧ (∀ e, env.tryWaitResult = .error e → alive env = false)
  ∧ (∀ e, env.childLockFail = some e → alive env = false) := by
  refine ⟨?_, ?_, ?_, ?_⟩
  · intro h1 h2; simp [alive, h1, h2]
  · intro code h1 h2; simp [alive, h1, h2]
  · intro e h2
    cases h1 : env.childLockFail with
    | some m => simp [alive, h1]
    | none => simp [alive, h1, h2]
  · intro e h1; simp [alive, h1]

/-- Witness for C7 on a running and a status-check-failed state. -/
theorem c7_alive_total_witness :
    alive ⟨none, .ok none⟩ = true ∧ alive ⟨none, .error ("gone".toList)⟩ = false :=
  ⟨(c7_alive_total ⟨none, .ok none⟩).1 rfl rfl,
   (c7_alive_total ⟨none, .error ("gone".toList)⟩).2.2.1 ("gone".toList) rfl⟩

/-- C8: with the child lock acquired, stop writes the `quit` line and
flushes whenever the stdin lock is obtained — regardless of write or flush
failure, and skipping both writes when the stdin lock fails — then sleeps
100 ms, kills and waits unconditionally, and returns success. -/
theorem c8_stop_sequence (env : StopEnv) (h : env.childLockFail = none) :
    (env.stdinLockFail = none →
        stop env = ([Action.writeStdin quitLine, Action.flushStdin,
                     Action.sleepMs 100, Action.kill, Action.waitChild], .ok ()))
  ∧ (∀ m, env.stdinLockFail = some m →
        stop env = ([Action.sleepMs 100, Action.kill, Action.waitChild], .ok ())) := by
  constructor
  · intro h2; simp [stop, h, h2]
  · intro m h2; simp [stop, h, h2]

/-- Witness for C8 at a fully healthy stop environment. -/
theorem c8_stop_sequence_witness :
    stop ⟨none, none, none, none, none, none⟩ =
      ([Action.writeStdin quitLine, Action.flushStdin,
        Action.sleepMs 100, Action.kill, Action.waitChild], .ok ()) :=
  (c8_stop_sequence ⟨none, none, none, none, none, none⟩ rfl).1 rfl

/-- C1 counterexample: with a poisoned child lock, stop surfaces a lock
error to the caller instead of returning success, because the `?` on
`process.child.lock()` propagates the failure. -/
theorem c1_stop_lock_fails :
    (stop ⟨some ("poisoned".toList), none, none, none, none, none⟩).2 =
      .error (NifError.lockError ("poisoned".toList)) := by rfl

/-- C1 (amended): stop never fails provided the child lock is acquired — all
stdin-lock, write, flush, kill and wait failures are swallowed; the only
error stop can surface is the lock error from a poisoned child lock. -/
theorem c1_stop_best_effort (env : StopEnv) :
    (env.childLockFail = none → (stop env).2 = .ok ())
  ∧ (∀ er, (stop env).2 = .error er →
      ∃ m, env.childLockFail = some m ∧ er = NifError.lockError m) := by
  constructor
  · intro h; simp [stop, h]
  · intro er h
    cases hc : env.childLockFail with
    | none => simp [stop, hc] at h
    | some m =>
      simp [stop, hc] at h
      exact ⟨m, rfl, h.symm⟩

/-- Witness for C1 (amended) at a healthy stop environment. -/
theorem c1_stop_best_effort_witness :
    (stop ⟨none, none, none, none, none, none⟩).2 = .ok () :=
  (c1_stop_best_effort ⟨none, none, none, none, none, none⟩).1 rfl

/-- C4 counterexample: with spawn succeeding and both pipe ends obtained, an
underlying error in the handshake read makes start return a read failure —
an error kind that is neither SpawnError nor StreamAcquisitionError — and no
handle. -/
theorem c4_start_handshake_error :
    (start ⟨none, true, true, none, [ReadEvent.err ("io error".toList)]⟩).2 =
      .error (NifError.readError ("io error".toList)) := by rfl

/-- C4 (amended): start fails with SpawnError, StreamAcquisitionError, or an
error propagated from the handshake read (a lock or read failure); when
spawning, both pipe acquisitions and the stdout lock succeed and the stream
carries no read error, start returns a handle — in particular end-of-stream
before any prompt (partial handshake text) is still success. -/
theorem c4_start_error_kinds (env : StartEnv) :
    ((env.spawnFail = none ∧ env.stdinAcq = true ∧ env.stdoutAcq = true ∧
      env.stdoutLockFail = none ∧ ∀ e, ReadEvent.err e ∉ env.events) →
        (start env).2 = .ok ())
  ∧ (∀ er, (start env).2 = .error er →
      (∃ m, er = NifError.spawnError m) ∨
      (∃ m, er = NifError.streamAcquisitionError m) ∨
      (∃ m, er = NifError.lockError m) ∨
      (∃ m, er = NifError.readError m)) := by
  constructor
  · rintro ⟨h1, h2, h3, h4, h5⟩
    obtain ⟨out, hout⟩ := read_loop_no_err_ok env.events h5 []
    simp [start, h1, h2, h3, read_until_prompt, h4, hout]
  · intro er h
    cases h1 : env.spawnFail with
    | some m =>
      simp [start, h1] at h
      exact Or.inl ⟨m, h.symm⟩
    | none =>
      cases h2 : env.stdinAcq with
      | false =>
        simp [start, h1, h2] at h
        exact Or.inr (Or.inl ⟨_, h.symm⟩)
      | true =>
        cases h3 : env.stdoutAcq with
        | false =>
          simp [start, h1, h2, h3] at h
          exact Or.inr (Or.inl ⟨_, h.symm⟩)
        | true =>
          cases h4 : env.stdoutLockFail with
          | some m =>
            simp [start, h1, h2, h3, read_until_prompt, h4] at h
            exact Or.inr (Or.inr (Or.inl ⟨m, h.symm⟩))
          | none =>
            cases h5 : read_loop env.events [] with
            | ok out =>
              simp [start, h1, h2, h3, read_until_prompt, h4, h5] at h
            | error er2 =>
              simp [start, h1, h2, h3, read_until_prompt, h4, h5] at h
              obtain ⟨m, hm⟩ := read_loop_error_kind env.events [] er2 h5
              exact Or.inr (Or.inr (Or.inr ⟨m, by rw [← h, hm]⟩))

/-- Witness for C4 (amended): start succeeds on an immediately closed but
error-free stream. -/
theorem c4_start_error_kinds_witness :
    (start ⟨none, true, true, none, []⟩).2 = .ok () :=
  (c4_start_error_kinds ⟨none, true, true, none, []⟩).1
    ⟨rfl, rfl, rfl, rfl, fun _ => List.not_mem_nil _⟩

/-- C9: when the handshake read fails, start propagates that error and
returns no handle, and the spawned child is neither killed nor reaped: the
action trace contains no kill and no wait. -/
theorem c9_start_no_cleanup (env : StartEnv) (er : NifError)
    (h1 : env.spawnFail = none) (h2 : env.stdinAcq = true)
    (h3 : env.stdoutAcq = true)
    (h4 : read_until_prompt env.stdoutLockFail env.events = .error er) :
    (start env).2 = .error er
  ∧ Action.kill ∉ (start env).1 ∧ Action.waitChild ∉ (start env).1 := by
  have hs : start env = ([Action.spawn], .error er) := by
    simp [start, h1, h2, h3, h4]
  rw [hs]
  exact ⟨rfl, by simp, by simp⟩

/-- Witness for C9 at a concrete failing handshake. -/
theorem c9_start_no_cleanup_witness :
    (start ⟨none, true, true, none, [ReadEvent.err ("broken pipe".toList)]⟩).2 =
      .error (NifError.readError ("broken pipe".toList)) :=
  (c9_start_no_cleanup ⟨none, true, true, none,
      [ReadEvent.err ("broken pipe".toList)]⟩
    (NifError.readError ("broken pipe".toList)) rfl rfl rfl (by rfl)).1

end ExMaude
